import Mathlib

/-!
# Verification of the `nfc-core` secure-element protocol layer

Shallow embedding of the TypeScript sources of `Revibase/nfc-core`:
byte utilities, the APDU command builders, the TLV secure-object codec,
attribute extraction, policy checks, the status-word check and the
read-or-create fallback of the session orchestrator.

Byte sequences are `List Nat` (JavaScript `number[]`); a fallible
JavaScript function (one that can `throw`) is embedded as
`Except String _` carrying the thrown message; a JavaScript value that
may be `undefined` is embedded as `Option _`.
-/

namespace NfcCore

/-! ## Byte utilities (`src/utils/helpers.ts`) -/

/-- `toLittleEndian` (helpers.ts): reverses the byte order independently
within every consecutive 32-byte chunk.  The source loops
`for (i = 0; i < len; i += 32) push(...slice(i, i+32).reverse())`;
here the loop is driven by a fuel argument bounded by the list length
(each iteration consumes at least one element, so `l.length` iterations
always suffice). -/
def toLittleEndianGo : Nat → List Nat → List Nat
  | 0, _ => []
  | _ + 1, [] => []
  | fuel + 1, l => (l.take 32).reverse ++ toLittleEndianGo fuel (l.drop 32)

def toLittleEndian (l : List Nat) : List Nat :=
  toLittleEndianGo l.length l

/-- `encodeTLVLength` (helpers.ts): 1 byte if `n ≤ 127`; `0x81,n` if
`n ≤ 255`; `0x82,hi,lo` if `n ≤ 65535`; throws above that.
For `n ≤ 65535` the JavaScript `(n >> 8) & 0xff` equals `n / 256` and
`n & 0xff` equals `n % 256`. -/
def encodeTLVLength (length : Nat) : Except String (List Nat) :=
  if length ≤ 127 then .ok [length]
  else if length ≤ 255 then .ok [0x81, length]
  else if length ≤ 65535 then .ok [0x82, length / 256, length % 256]
  else .error "Length exceeds maximum supported size of 65535."

/-- The 1/2/3-byte BER-TLV length rule as applied by
`parseSecureObjectPayload` (helpers.ts lines 64-73): a leading `0x81`
prefixes a one-byte length, a leading `0x82` prefixes a two-byte
big-endian length, any other leading byte is itself the length.
`none` models reading past the end of the bytes. -/
def decodeTLVLength : List Nat → Option Nat
  | [] => none
  | l0 :: rest =>
    if l0 = 0x81 then rest.head?
    else if l0 = 0x82 then
      match rest with
      | b1 :: b2 :: _ => some (b1 * 256 + b2)
      | _ => none
    else some l0

/-! ## TLV secure-object codec (`parseSecureObjectPayload`) -/

/-- The tag→value mapping built by `parseSecureObjectPayload`: one
optional slot per recognized tag `TAG_1 .. TAG_6`; unknown tags are
dropped. -/
structure TagMap where
  tag1 : Option (List Nat) := none
  tag2 : Option (List Nat) := none
  tag3 : Option (List Nat) := none
  tag4 : Option (List Nat) := none
  tag5 : Option (List Nat) := none
  tag6 : Option (List Nat) := none
  deriving DecidableEq, Repr

/-- The `switch (tag)` of `parseSecureObjectPayload`: tags `0x41 .. 0x46`
store the value, every other tag is skipped. -/
def TagMap.set (m : TagMap) (tag : Nat) (v : List Nat) : TagMap :=
  if tag = 0x41 then { m with tag1 := some v }
  else if tag = 0x42 then { m with tag2 := some v }
  else if tag = 0x43 then { m with tag3 := some v }
  else if tag = 0x44 then { m with tag4 := some v }
  else if tag = 0x45 then { m with tag5 := some v }
  else if tag = 0x46 then { m with tag6 := some v }
  else m

/-- The values held by a `TagMap`. -/
def TagMap.values (m : TagMap) : List (List Nat) :=
  [m.tag1, m.tag2, m.tag3, m.tag4, m.tag5, m.tag6].reduceOption

/-- The `while (index < payload.length)` loop of
`parseSecureObjectPayload` (helpers.ts lines 60-99), fuel-driven.
Per iteration: read the tag byte, read the length by the 1/2/3-byte
rule, take `length` value bytes (JS `slice` clamps at the end of the
payload), advance the index past them.

Reading the length byte past the end of the payload gives JS
`undefined`: the value is then `slice(index, index + undefined)` `= []`
and `index += undefined` is `NaN`, which exits the loop — embedded as
returning `acc.set tag []` without recursing.  In the `0x82` arm an
out-of-range operand of `<<`/`|` coerces to `0`, so there the length
stays numeric (`getD 0`); for byte values (`< 256`) the JS
`(b1 << 8) | b2` equals `b1 * 256 + b2`.

Each iteration advances the index by at least 2, so `payload.length`
fuel always suffices (proved in `parseGo_fuel_irrelevant`). -/
def parseGo : Nat → List Nat → Nat → TagMap → TagMap
  | 0, _, _, acc => acc
  | fuel + 1, payload, index, acc =>
    if h : index < payload.length then
      let tag := payload.get ⟨index, h⟩
      match payload[index + 1]? with
      | none => acc.set tag []
      | some l0 =>
        if l0 = 0x81 then
          match payload[index + 2]? with
          | none => acc.set tag []
          | some l =>
            parseGo fuel payload (index + 3 + l)
              (acc.set tag ((payload.drop (index + 3)).take l))
        else if l0 = 0x82 then
          let l := (payload[index + 2]?).getD 0 * 256 + (payload[index + 3]?).getD 0
          parseGo fuel payload (index + 4 + l)
            (acc.set tag ((payload.drop (index + 4)).take l))
        else
          parseGo fuel payload (index + 2 + l0)
            (acc.set tag ((payload.drop (index + 2)).take l0))
    else acc

/-- `parseSecureObjectPayload` (helpers.ts): walk the payload from
index 0 with an empty map. -/
def parseSecureObjectPayload (payload : List Nat) : TagMap :=
  parseGo payload.length payload 0 {}

/-! ## Status-word check (`transceiveAndCheck`, NfcCore class) -/

/-- JS `response.at(-k)`: the element `k` from the end, `undefined`
when the list is shorter than `k`. -/
def atNeg (resp : List Nat) (k : Nat) : Option Nat :=
  if 1 ≤ k ∧ k ≤ resp.length then resp[resp.length - k]? else none

/-- `transceiveAndCheck` given the transport's response bytes: throws
the caller's message unless `at(-2) = 0x90` and `at(-1) = 0x00`;
on success returns `slice(0, -2)`, the response without the trailing
two status bytes. -/
def transceiveAndCheck (resp : List Nat) (errorMsg : String) :
    Except String (List Nat) :=
  if atNeg resp 2 = some 0x90 ∧ atNeg resp 1 = some 0x00 then
    .ok (resp.take (resp.length - 2))
  else .error errorMsg

/-! ## Attribute extraction (`extractAttributes`, helpers.ts) -/

/-- The attribute record built by `extractAttributes`.  Single-index
reads (`parsedData[4]`, `parsedData[5]`, the trailing byte) may be JS
`undefined` on short blobs, hence `Option Nat`; `slice` reads are
lists. -/
structure Attributes where
  objectId : List Nat
  objectClass : Option Nat
  authenticationIndicator : Option Nat
  authCounter : List Nat
  authID : List Nat
  maxAuthAttempt : List Nat
  policy : List Nat
  origin : Option Nat
  deriving DecidableEq, Repr

/-- `extractAttributes` (helpers.ts lines 139-158).  JS
`slice(a, b)` on indices `a ≤ b` is `(drop a).take (b - a)`;
`slice(14, length - 1)` is `(drop 14).take (length - 15)` (for
`length = 0` the JS end index `-1` also yields the empty list, as does
the `Nat` subtraction).  Note the source reads `maxAuthAttempt` from
`slice(13, 14)` — index 13 — and `policy` from `slice(14, length - 1)`;
index 12 is never read. -/
def extractAttributes (parsedData : List Nat) : Attributes where
  objectId := parsedData.take 4
  objectClass := parsedData[4]?
  authenticationIndicator := parsedData[5]?
  authCounter := (parsedData.drop 6).take 2
  authID := (parsedData.drop 8).take 4
  maxAuthAttempt := (parsedData.drop 13).take 1
  policy := (parsedData.drop 14).take (parsedData.length - 15)
  origin := parsedData[parsedData.length - 1]?

/-! ## Policy checks (`readStoredPubkey` / `readStoredAsset`, NfcCore) -/

/-- JS `array.join("")` on a number array: concatenation of the decimal
string of every element with no separator. -/
def joinEmpty (l : List Nat) : String :=
  (l.map toString).foldl (· ++ ·) ""

/-- The canonical key-object policy compared against in
`readStoredPubkey`. -/
def KEY_POLICY : List Nat := [8, 0, 0, 0, 0, 24, 32, 0, 0]

/-- The canonical asset-object policy compared against in
`readStoredAsset`. -/
def ASSET_POLICY : List Nat := [8, 0, 0, 0, 0, 0, 32, 0, 0]

/-- The validation chain of `readStoredPubkey` (lines 212-225) applied
to a stored object that was read and signature-verified: object class,
origin, authentication indicator, then the policy compared by
`policy.join("") !== KEY_POLICY.join("")`.  JS `attributes.objectClass
!== 1` is true when the field is `undefined`, hence the `Option`
comparisons. -/
def readStoredPubkeyChecks (data : List Nat) (a : Attributes) :
    Except String (List Nat) :=
  if a.objectClass ≠ some 1 then .error "Object is not a valid key"
  else if a.origin ≠ some 2 then
    .error "Key is not generated from secure element!"
  else if a.authenticationIndicator = some 2 then
    .error "Key should not be an authentication object"
  else if joinEmpty a.policy ≠ joinEmpty KEY_POLICY then
    .error "Key policy is not set correctly"
  else .ok data

/-- The validation of `readStoredAsset` (lines 250-255) applied to a
stored object that was read and signature-verified: the policy compared
by `policy.join("") !== ASSET_POLICY.join("")`. -/
def readStoredAssetChecks (data : List Nat) (a : Attributes) :
    Except String (List Nat) :=
  if joinEmpty a.policy ≠ joinEmpty ASSET_POLICY then
    .error "Asset is set with wrong policy"
  else .ok data

/-! ## Sign operation (`signRawPayload`, NfcCore) -/

/-- `MAX_APDU_SIZE` (NfcCore). -/
def MAX_APDU_SIZE : Nat := 900

/-- `signRawPayload` (lines 125-143), given the transport's response to
the sign command: reject payloads above `MAX_APDU_SIZE` before any
exchange; otherwise check the status word and return
`toLittleEndian(response.slice(4))` — the status-stripped response with
its first four bytes also removed, reversed per 32-byte chunk. -/
def signRawPayload (payload : List Nat) (resp : List Nat) :
    Except String (List Nat) :=
  if payload.length > MAX_APDU_SIZE then
    let n := payload.length
    .error s!"Transaction size cannot exceed 900 bytes, Size: {n}"
  else
    (transceiveAndCheck resp "Signing Transaction failed").map
      fun r => toLittleEndian (r.drop 4)

/-! ## APDU command builders -/

/-- An element of a JavaScript array that is meant to hold bytes but —
through `Array.prototype.concat` on a wrapped array — can also hold a
nested array. -/
inductive JsVal where
  | num (n : Nat)
  | arr (l : List Nat)
  deriving DecidableEq, Repr

/-- `createAsset` (APDU builder source).  The source computes
`data = [id].concat(assetId)` — the array `id` is wrapped and becomes a
single *element* of `data` (it is not flattened), so `data.length`
counts it as one and the spread `...data` emits the nested array
itself. -/
def createAsset (id assetIdentifier assetId : List Nat) : List JsVal :=
  let data : List JsVal := JsVal.arr id :: assetId.map JsVal.num
  let payload : List JsVal :=
    ([0x11, 0x09, 0x08, 0x00, 0x00, 0x00, 0x00, 0x00, 0x20, 0x00, 0x00,
      0x41, 0x04].map .num)
    ++ assetIdentifier.map .num
    ++ ([0x43, 0x02, 0x00, data.length, 0x44, data.length].map .num)
    ++ data
  ([0x80, 0x01, 0x06, 0x00, payload.length].map .num) ++ payload

/-- `readData` (src/apdu/readData.ts): the read-object command
`0x80,0x02,0x00,0x00,0x00,0x00,0x06,0x41,0x04,<key>,0x00,0x00`. -/
def readData (key : List Nat) : List Nat :=
  [0x80, 0x02, 0x00, 0x00] ++ [0x00, 0x00, 0x06] ++ [0x41, 0x04] ++ key
    ++ [0x00, 0x00]

/-! ## Hex decoding (`hexToUint8Array`, helpers.ts) -/

/-- JS whitespace stripped by `parseInt` (the ASCII part; the inputs of
interest are two-character chunks). -/
def isJsWhitespace (c : Char) : Bool :=
  c = ' ' ∨ c = '\t' ∨ c = '\n' ∨ c = '\x0d' ∨ c = '\x0b' ∨ c = '\x0c'

def isHexDigit (c : Char) : Bool :=
  ('0' ≤ c ∧ c ≤ '9') ∨ ('a' ≤ c ∧ c ≤ 'f') ∨ ('A' ≤ c ∧ c ≤ 'F')

def hexDigitVal (c : Char) : Nat :=
  if '0' ≤ c ∧ c ≤ '9' then c.toNat - '0'.toNat
  else if 'a' ≤ c ∧ c ≤ 'f' then c.toNat - 'a'.toNat + 10
  else if 'A' ≤ c ∧ c ≤ 'F' then c.toNat - 'A'.toNat + 10
  else 0

def hexListVal (cs : List Char) : Nat :=
  cs.foldl (fun acc c => acc * 16 + hexDigitVal c) 0

/-- JS `parseInt(s, 16)`: strip leading whitespace, an optional sign,
an optional `0x`/`0X` prefix, then read the longest prefix of hex
digits; `NaN` (here `none`) only when that prefix is empty.  Trailing
garbage after at least one digit is silently ignored. -/
def parseIntHex (cs : List Char) : Option Int :=
  let cs1 := cs.dropWhile isJsWhitespace
  let signed : Int × List Char :=
    match cs1 with
    | '-' :: r => (-1, r)
    | '+' :: r => (1, r)
    | _ => (1, cs1)
  let cs3 :=
    match signed.2 with
    | '0' :: 'x' :: r => r
    | '0' :: 'X' :: r => r
    | r => r
  let digits := cs3.takeWhile isHexDigit
  if digits.isEmpty then none
  else some (signed.1 * (hexListVal digits : Int))

/-- The `Uint8Array` element conversion applied by
`new Uint8Array(bytes)`: the value modulo 256 (JS ToUint8). -/
def toUint8 (v : Int) : Nat := (v % 256).toNat

/-- The per-chunk loop of `hexToUint8Array`: take each two-character
slice, `parseInt(chunk, 16)`, throw on `NaN`, push the value. -/
def hexChunksToBytes : List Char → Except String (List Nat)
  | [] => .ok []
  | [c] =>
    match parseIntHex [c] with
    | none => .error "Invalid hexadecimal string: contains invalid characters."
    | some v => .ok [toUint8 v]
  | c1 :: c2 :: rest =>
    match parseIntHex [c1, c2] with
    | none => .error "Invalid hexadecimal string: contains invalid characters."
    | some v => (hexChunksToBytes rest).map (toUint8 v :: ·)

/-- `hexToUint8Array` (helpers.ts lines 214-232): throw on odd length,
then decode two characters at a time with `parseInt(·, 16)`, throwing
only when `parseInt` returns `NaN`. -/
def hexToUint8Array (s : List Char) : Except String (List Nat) :=
  if s.length % 2 ≠ 0 then
    .error "Invalid hexadecimal string: length must be even."
  else hexChunksToBytes s

/-! ## Certificate verification (`parseX509FromNumberArray`, helpers.ts)

The DER parsing (`jsrsasign`), SHA-256 and ECDSA P-256 verification are
third-party library calls; they enter the embedding as oracle
parameters, and the repository's own control flow around them is what
is modelled. -/

/-- What `parseX509FromNumberArray` extracts from the parsed
certificate: `tbs` is `ASN1HEX.getTLVbyList(hex, 0, [0], "30")` (the
to-be-signed region, `none` when absent), `signature` is
`getSignatureValueHex()`, `spki` is `getSPKIValue()` — the embedded
subject public key.  Hex strings are carried as their byte lists. -/
structure X509View where
  tbs : Option (List Nat)
  signature : List Nat
  spki : List Nat

/-- `parseX509FromNumberArray` (helpers.ts lines 190-205) relative to a
certificate-parsing oracle `parse`, a hash oracle `sha256Fn` and a
signature-verification oracle `p256verify sig msgHash pubkey`: hash the
to-be-signed region, verify the certificate signature against the
caller's root public key, and on success return the certificate's
embedded subject public key; otherwise throw. -/
def parseX509FromNumberArray (parse : List Nat → X509View)
    (sha256Fn : List Nat → List Nat)
    (p256verify : List Nat → List Nat → List Nat → Bool)
    (derCert : List Nat) (certificatePubkey : List Nat) :
    Except String (List Nat) :=
  let x := parse derCert
  match x.tbs with
  | some tbsCert =>
    if p256verify x.signature (sha256Fn tbsCert) certificatePubkey then
      .ok x.spki
    else .error "Unauthorised certificate signature."
  | none => .error "Unauthorised certificate signature."

/-! ## Read-or-create fallback (`readStoredDataWithFallback`, NfcCore)

The transport and the cryptographic verification are nondeterministic
from the orchestrator's point of view; a run is modelled by an
environment fixing the response bytes of each exchange the run could
make and the outcome of each `verifyData` call (`none` = the object
signature did not verify, so `verifyData` threw). -/

/-- A command dispatched by the fallback, as seen on the transport. -/
inductive Cmd where
  | read
  | create
  deriving DecidableEq, Repr

/-- One run's transport and verification outcomes: `read1` is the
response to the first read exchange, `verify1` the outcome of
`verifyData` on it, `createResp` the response to the create exchange
(when one happens), `read2` / `verify2` those of the retried read.
`α` is the type of a verified stored object. -/
structure FallbackEnv (α : Type) where
  read1 : List Nat
  verify1 : Option α
  createResp : List Nat
  read2 : List Nat
  verify2 : Option α

/-- The `catch` block of `readStoredDataWithFallback` (lines 282-292):
without a create command (the asset caller passes `undefined` for both
the command and its error message) return `null`; otherwise dispatch
the create command, re-dispatch the read, and verify — every failure
here propagates (`verifyData` throws `readErrorMsg` when verification
fails).  The second component of the result lists the commands
dispatched from the start of the operation. -/
def fallbackCatch {α : Type} (env : FallbackEnv α) (hasCreate : Bool)
    (readErrorMsg createErrorMsg : String) :
    Except String (Option α) × List Cmd :=
  if hasCreate = false then (.ok none, [.read])
  else
    match transceiveAndCheck env.createResp createErrorMsg with
    | .error e => (.error e, [.read, .create])
    | .ok _ =>
      match transceiveAndCheck env.read2 readErrorMsg with
      | .error e => (.error e, [.read, .create, .read])
      | .ok _ =>
        match env.verify2 with
        | some s => (.ok (some s), [.read, .create, .read])
        | none => (.error readErrorMsg, [.read, .create, .read])

/-- `readStoredDataWithFallback` (lines 272-293): try the read exchange
and `verifyData`; any throw inside the `try` lands in `fallbackCatch`.
`readStoredPubkey` calls this with a create command (`hasCreate =
true`), `readStoredAsset` without (`hasCreate = false`). -/
def readStoredDataWithFallback {α : Type} (env : FallbackEnv α)
    (hasCreate : Bool) (readErrorMsg createErrorMsg : String) :
    Except String (Option α) × List Cmd :=
  match transceiveAndCheck env.read1 readErrorMsg with
  | .ok _ =>
    match env.verify1 with
    | some s => (.ok (some s), [.read])
    | none => fallbackCatch env hasCreate readErrorMsg createErrorMsg
  | .error _ => fallbackCatch env hasCreate readErrorMsg createErrorMsg

/-- The first read step of a fallback run fails: the read exchange has
a bad status word, or its payload's signature verification fails (both
throw inside the `try`). -/
def firstReadFails {α : Type} (env : FallbackEnv α)
    (readErrorMsg : String) : Prop :=
  (transceiveAndCheck env.read1 readErrorMsg).isOk = false ∨
    env.verify1 = none

instance {α : Type} (env : FallbackEnv α) (m : String) :
    Decidable (firstReadFails env m) := by
  unfold firstReadFails
  exact @instDecidableOr _ _ (by infer_instance) Option.decidableEqNone

/-! ## Decidability helpers -/

instance instDecidableEqExcept {ε α : Type} [DecidableEq ε] [DecidableEq α] :
    DecidableEq (Except ε α) := fun x y =>
  match x, y with
  | .ok a, .ok b =>
    if h : a = b then .isTrue (by rw [h])
    else .isFalse (by intro hc; injection hc; contradiction)
  | .error a, .error b =>
    if h : a = b then .isTrue (by rw [h])
    else .isFalse (by intro hc; injection hc; contradiction)
  | .ok _, .error _ => .isFalse (by intro hc; exact Except.noConfusion hc)
  | .error _, .ok _ => .isFalse (by intro hc; exact Except.noConfusion hc)

/-! ## Helper lemmas on the status-word check -/

/-- A response that ends in two bytes `a, b` passes the status check
iff `a = 0x90` and `b = 0x00`, and the success payload is exactly the
part before them. -/
theorem transceiveAndCheck_append (pre : List Nat) (a b : Nat)
    (msg : String) :
    transceiveAndCheck (pre ++ [a, b]) msg =
      if a = 0x90 ∧ b = 0x00 then .ok pre else .error msg := by
  have hlen : (pre ++ [a, b]).length = pre.length + 2 := by simp
  have h2 : (pre ++ [a, b])[pre.length]? = some a := by
    rw [List.getElem?_append_right (Nat.le_refl _)]; simp
  have h1 : (pre ++ [a, b])[pre.length + 1]? = some b := by
    rw [List.getElem?_append_right (by omega)]; simp
  unfold transceiveAndCheck atNeg
  rw [hlen]
  simp only [show pre.length + 2 - 2 = pre.length from rfl,
    show pre.length + 2 - 1 = pre.length + 1 from rfl, h2, h1]
  by_cases ha : a = 0x90 <;> by_cases hb : b = 0x00 <;>
    simp [ha, hb, List.take_left]

/-- A response shorter than two bytes always fails the status check
(`at(-2)` is `undefined` there). -/
theorem transceiveAndCheck_short (resp : List Nat) (msg : String)
    (h : resp.length < 2) :
    transceiveAndCheck resp msg = .error msg := by
  unfold transceiveAndCheck atNeg
  have h2 : ¬ 2 ≤ resp.length := by omega
  simp [h2]

/-- Any response splits as body plus a two-byte status word, or is
shorter than two bytes. -/
theorem resp_split (resp : List Nat) :
    (∃ pre a b, resp = pre ++ [a, b]) ∨ resp.length < 2 := by
  rcases List.eq_nil_or_concat resp with h | ⟨l, b, rfl⟩
  · right; simp [h]
  · rcases List.eq_nil_or_concat l with h | ⟨l', a, rfl⟩
    · right; simp [h]
    · exact .inl ⟨l', a, b, by simp⟩

/-! ## Claim theorems -/

/-- C6: for every command exchange, a response whose final two bytes
are anything other than `0x90, 0x00` — including responses shorter than
two bytes — makes `transceiveAndCheck` fail with the caller-provided
description, and a response ending in `0x90, 0x00` never does; on
success the returned payload is exactly the response with those
trailing two bytes removed. -/
theorem C6_status_check (resp : List Nat) (msg : String) :
    (∀ pre a b, resp = pre ++ [a, b] →
      (a = 0x90 ∧ b = 0x00 → transceiveAndCheck resp msg = .ok pre) ∧
      (¬ (a = 0x90 ∧ b = 0x00) → transceiveAndCheck resp msg = .error msg)) ∧
    (resp.length < 2 → transceiveAndCheck resp msg = .error msg) := by
  constructor
  · rintro pre a b rfl
    rw [transceiveAndCheck_append]
    constructor
    · intro h; simp [h]
    · intro h; simp [h]
  · exact transceiveAndCheck_short resp msg

/-- Witness for C6 at concrete responses: `[7, 8, 0x90, 0x00]`
succeeds with payload `[7, 8]`, `[7, 8, 0x90, 0x01]` fails, and the
one-byte response `[0x90]` fails. -/
theorem C6_status_check_witness :
    transceiveAndCheck [7, 8, 0x90, 0x00] "e" = .ok [7, 8] ∧
    transceiveAndCheck [7, 8, 0x90, 0x01] "e" = .error "e" ∧
    transceiveAndCheck [0x90] "e" = .error "e" :=
  ⟨(((C6_status_check [7, 8, 0x90, 0x00] "e").1 [7, 8] 0x90 0x00
      rfl).1 (by decide)),
   (((C6_status_check [7, 8, 0x90, 0x01] "e").1 [7, 8] 0x90 0x01
      rfl).2 (by decide)),
   ((C6_status_check [0x90] "e").2 (by decide))⟩

/-- C2 counterexample: for the 900-byte-bounded payload `[]` and the
successful response `[1, 2, 3, 4, 5, 0x90, 0x00]`, the claim predicts
the status-stripped bytes `[1, 2, 3, 4, 5]` chunk-reversed, i.e.
`[5, 4, 3, 2, 1]`; the code also drops the first four bytes and
returns `[5]`. -/
theorem C2_counterexample :
    signRawPayload [] [1, 2, 3, 4, 5, 0x90, 0x00] = .ok [5] ∧
    toLittleEndian [1, 2, 3, 4, 5] = [5, 4, 3, 2, 1] ∧
    signRawPayload [] [1, 2, 3, 4, 5, 0x90, 0x00] ≠
      .ok (toLittleEndian [1, 2, 3, 4, 5]) := by
  refine ⟨by decide, by decide, ?_⟩
  decide

/-- C2 amended: for every payload of at most 900 bytes and every
response ending in `0x90, 0x00`, `signRawPayload` strips the two
trailing status bytes, strips the *first four bytes* of what remains
(a response header), and reverses the rest independently within each
consecutive 32-byte chunk. -/
theorem C2_sign_strips_header (payload pre : List Nat)
    (hlen : payload.length ≤ 900) :
    signRawPayload payload (pre ++ [0x90, 0x00]) =
      .ok (toLittleEndian (pre.drop 4)) := by
  unfold signRawPayload
  rw [if_neg (by simpa [MAX_APDU_SIZE] using Nat.not_lt.2 hlen),
    transceiveAndCheck_append]
  rfl

/-- Witness for C2 amended at payload `[]` and response
`[1, 2, 3, 4, 5, 0x90, 0x00]`. -/
theorem C2_sign_strips_header_witness :
    signRawPayload [] ([1, 2, 3, 4, 5] ++ [0x90, 0x00]) =
      .ok (toLittleEndian ([1, 2, 3, 4, 5].drop 4)) :=
  C2_sign_strips_header [] [1, 2, 3, 4, 5] (by decide)

/-- C1 (code bug): the policy comparison joins the byte list into one
decimal string with no separator, so the 11-byte policy
`[8,0,0,0,0,2,4,3,2,0,0]` — which differs from the canonical key
policy `[8,0,0,0,0,24,32,0,0]` in length and bytes — joins to the same
string `"80000243200"` and is accepted by `readStoredPubkey`'s checks;
likewise `[8,0,0,0,0,0,3,2,0,0]` is accepted by `readStoredAsset`'s
check although it differs from the canonical asset policy.  Objects
with the canonical policies are accepted, as the claim states. -/
theorem C1_policy_join_collision :
    readStoredPubkeyChecks [7]
      ⟨[1, 0, 0, 0], some 1, some 0, [0, 0], [0, 0, 0, 0], [5],
        [8, 0, 0, 0, 0, 2, 4, 3, 2, 0, 0], some 2⟩ = .ok [7] ∧
    ([8, 0, 0, 0, 0, 2, 4, 3, 2, 0, 0] : List Nat) ≠ KEY_POLICY ∧
    readStoredAssetChecks [9]
      ⟨[0, 0, 0, 0], some 0, some 0, [0, 0], [0, 0, 0, 0], [5],
        [8, 0, 0, 0, 0, 0, 3, 2, 0, 0], some 2⟩ = .ok [9] ∧
    ([8, 0, 0, 0, 0, 0, 3, 2, 0, 0] : List Nat) ≠ ASSET_POLICY ∧
    readStoredPubkeyChecks [7]
      ⟨[1, 0, 0, 0], some 1, some 0, [0, 0], [0, 0, 0, 0], [5],
        KEY_POLICY, some 2⟩ = .ok [7] ∧
    readStoredAssetChecks [9]
      ⟨[0, 0, 0, 0], some 0, some 0, [0, 0], [0, 0, 0, 0], [5],
        ASSET_POLICY, some 2⟩ = .ok [9] := by
  decide

/-- C3 (code bug): `createAsset` wraps the id array —
`data = [id].concat(assetId)` keeps `id` as a single nested element —
so for `id = [0,0,0,0]`, `assetIdentifier = [9,9,9,9]`,
`assetId = [1]` the emitted sequence carries `JsVal.arr [0,0,0,0]`
instead of the four id bytes, and both inner length fields hold
`data.length = 2` although `id ++ assetId` has `5` bytes.  The claim's
flat layout `0x80,0x01,0x06,0x00,<len>,<payload>` with the payload
embedding the concatenated id and asset bytes does not hold. -/
theorem C3_createAsset_nested_id :
    createAsset [0, 0, 0, 0] [9, 9, 9, 9] [1] =
      ([0x80, 0x01, 0x06, 0x00, 25, 0x11, 0x09, 0x08, 0x00, 0x00, 0x00,
        0x00, 0x00, 0x20, 0x00, 0x00, 0x41, 0x04, 9, 9, 9, 9, 0x43,
        0x02, 0x00, 2, 0x44, 2].map JsVal.num
        ++ [JsVal.arr [0, 0, 0, 0], JsVal.num 1]) ∧
    JsVal.arr [0, 0, 0, 0] ∈ createAsset [0, 0, 0, 0] [9, 9, 9, 9] [1] ∧
    (([0, 0, 0, 0] ++ [1] : List Nat).length = 5 ∧ (2 : Nat) ≠ 5) := by
  decide

/-- C9 (code bug): `hexToUint8Array` relies on `parseInt(chunk, 16)`,
which parses the longest hex prefix and ignores trailing garbage, so
the even-length string `"1g"` containing the non-hex character `'g'`
is *not* rejected: it decodes to `[1]`.  (A chunk with no leading hex
digit, e.g. `"g1"`, is still rejected.) -/
theorem C9_hex_prefix_parse :
    hexToUint8Array ['1', 'g'] = .ok [1] ∧
    isHexDigit 'g' = false ∧
    (['1', 'g'] : List Char).length % 2 = 0 ∧
    hexToUint8Array ['g', '1'] =
      .error "Invalid hexadecimal string: contains invalid characters." := by
  decide

/-- C7 counterexample: on the 16-byte blob `[0,1,...,15]` (each byte
equal to its offset) the claim predicts `maxAuthAttempt = [12]` (the
byte immediately after `authID`) and `policy = [13, 14]`; the code
reads `maxAuthAttempt` from offset 13 and the policy from offsets
14..14, skipping offset 12 entirely. -/
theorem C7_counterexample :
    (extractAttributes
        [0, 1, 2, 3, 4, 5, 6, 7, 8, 9, 10, 11, 12, 13, 14, 15]).maxAuthAttempt
      = [13] ∧
    (extractAttributes
        [0, 1, 2, 3, 4, 5, 6, 7, 8, 9, 10, 11, 12, 13, 14, 15]).policy
      = [14] ∧
    ([13] : List Nat) ≠ [12] ∧ ([14] : List Nat) ≠ [13, 14] := by
  decide

/-- C7 amended: on a blob of at least 15 bytes, `extractAttributes`
reads objectId from bytes 0-3, objectClass from byte 4,
authenticationIndicator from byte 5, authCounter from bytes 6-7,
authID from bytes 8-11, `maxAuthAttempt` from the single byte at
offset 13 (offset 12 is skipped), the policy from offset 14 up to but
excluding the final byte, and origin from the trailing byte. -/
theorem C7_extractAttributes_layout
    (b0 b1 b2 b3 b4 b5 b6 b7 b8 b9 b10 b11 b12 b13 b14 : Nat)
    (rest : List Nat) :
    extractAttributes (b0 :: b1 :: b2 :: b3 :: b4 :: b5 :: b6 :: b7 ::
        b8 :: b9 :: b10 :: b11 :: b12 :: b13 :: b14 :: rest) =
      ⟨[b0, b1, b2, b3], some b4, some b5, [b6, b7], [b8, b9, b10, b11],
        [b13], (b14 :: rest).dropLast, (b14 :: rest).getLast?⟩ := by
  unfold extractAttributes
  simp only [Attributes.mk.injEq]
  refine ⟨rfl, rfl, rfl, rfl, rfl, rfl, ?_, ?_⟩
  · show (b14 :: rest).take _ = _
    rw [List.dropLast_eq_take]
    congr 1
  · rw [List.getLast?_eq_getElem?]
    simp [List.getLast?_cons_cons]

/-- C5: relative to the certificate-parsing, SHA-256 and ECDSA-P-256
oracles (third-party library calls), a certificate whose to-be-signed
region's hash does not verify against the caller's root public key —
or whose to-be-signed region cannot be extracted — is rejected with the
untrusted-certificate error, and a certificate that verifies yields
exactly the certificate's embedded subject public key. -/
theorem C5_certificate_trust (parse : List Nat → X509View)
    (sha256Fn : List Nat → List Nat)
    (p256verify : List Nat → List Nat → List Nat → Bool)
    (derCert rootKey : List Nat) :
    (∀ tbs, (parse derCert).tbs = some tbs →
      p256verify (parse derCert).signature (sha256Fn tbs) rootKey = false →
      parseX509FromNumberArray parse sha256Fn p256verify derCert rootKey =
        .error "Unauthorised certificate signature.") ∧
    ((parse derCert).tbs = none →
      parseX509FromNumberArray parse sha256Fn p256verify derCert rootKey =
        .error "Unauthorised certificate signature.") ∧
    (∀ tbs, (parse derCert).tbs = some tbs →
      p256verify (parse derCert).signature (sha256Fn tbs) rootKey = true →
      parseX509FromNumberArray parse sha256Fn p256verify derCert rootKey =
        .ok (parse derCert).spki) := by
  have heq : parseX509FromNumberArray parse sha256Fn p256verify derCert
      rootKey =
      match (parse derCert).tbs with
      | some tbsCert =>
        if p256verify (parse derCert).signature (sha256Fn tbsCert) rootKey
        then .ok (parse derCert).spki
        else .error "Unauthorised certificate signature."
      | none => .error "Unauthorised certificate signature." := rfl
  refine ⟨?_, ?_, ?_⟩
  · intro tbs htbs hv
    rw [heq, htbs]
    simp [hv]
  · intro htbs
    rw [heq, htbs]
  · intro tbs htbs hv
    rw [heq, htbs]
    simp [hv]

/-- Witness for C5 with concrete oracles: a parser returning a fixed
certificate view and an always-true / always-false verifier. -/
theorem C5_certificate_trust_witness :
    parseX509FromNumberArray (fun _ => ⟨some [1], [2], [3, 4]⟩) id
      (fun _ _ _ => true) [9] [0] = .ok [3, 4] ∧
    parseX509FromNumberArray (fun _ => ⟨some [1], [2], [3, 4]⟩) id
      (fun _ _ _ => false) [9] [0] =
      .error "Unauthorised certificate signature." :=
  ⟨(C5_certificate_trust (fun _ => ⟨some [1], [2], [3, 4]⟩) id
      (fun _ _ _ => true) [9] [0]).2.2 [1] rfl rfl,
   (C5_certificate_trust (fun _ => ⟨some [1], [2], [3, 4]⟩) id
      (fun _ _ _ => false) [9] [0]).1 [1] rfl rfl⟩

/-- C4 counterexample: in the run where the first read of the
public-key object fails with a bad status word and the create-address
exchange then also fails, the read is dispatched only once — it is not
retried — and the create failure is propagated.  The claim's "the read
is retried exactly once" does not hold in every run with a failing
first read. -/
theorem C4_counterexample :
    firstReadFails (α := Unit) ⟨[], none, [], [], none⟩
      "Reading Public Key failed" ∧
    (readStoredDataWithFallback (α := Unit) ⟨[], none, [], [], none⟩
        true "Reading Public Key failed"
        "Generating Public Key failed").2.count Cmd.read = 1 ∧
    (readStoredDataWithFallback (α := Unit) ⟨[], none, [], [], none⟩
        true "Reading Public Key failed"
        "Generating Public Key failed").1 =
      .error "Generating Public Key failed" := by
  refine ⟨Or.inr rfl, ?_, ?_⟩ <;> decide

/-- C4 amended: in every run of the fallback, for the public-key
object (create command wired): if the first read step fails — bad
status word or failed object verification — the create command is
dispatched exactly once; if the create succeeds the read is dispatched
exactly twice (the one retry) and a failure of the retried read or of
its verification is propagated as an error; if the create fails, its
error is propagated and the read is not retried.  If the first read
step succeeds, the read is the only command and the object is
returned.  For the asset object (no create command wired) the create
command is never dispatched and a failed first read step yields `null`
rather than an error. -/
theorem C4_fallback_retry {α : Type} (env : FallbackEnv α)
    (rMsg cMsg : String) :
    (firstReadFails env rMsg →
      ((readStoredDataWithFallback env true rMsg cMsg).2.count
          Cmd.create = 1) ∧
      ((transceiveAndCheck env.createResp cMsg).isOk = true →
        (readStoredDataWithFallback env true rMsg cMsg).2 =
          [.read, .create, .read] ∧
        (((transceiveAndCheck env.read2 rMsg).isOk = false ∨
            env.verify2 = none) →
          ∃ e, (readStoredDataWithFallback env true rMsg cMsg).1 =
            .error e)) ∧
      ((transceiveAndCheck env.createResp cMsg).isOk = false →
        (readStoredDataWithFallback env true rMsg cMsg).1 =
          .error cMsg ∧
        (readStoredDataWithFallback env true rMsg cMsg).2 =
          [.read, .create])) ∧
    (¬ firstReadFails env rMsg →
      (readStoredDataWithFallback env true rMsg cMsg).2 = [.read] ∧
      ∃ s, (readStoredDataWithFallback env true rMsg cMsg).1 =
        .ok (some s)) ∧
    ((readStoredDataWithFallback env false rMsg cMsg).2.count
        Cmd.create = 0 ∧
      (firstReadFails env rMsg →
        (readStoredDataWithFallback env false rMsg cMsg).1 = .ok none)) := by
  obtain ⟨r1, v1, cr, r2, v2⟩ := env
  simp only [readStoredDataWithFallback, fallbackCatch, firstReadFails,
    transceiveAndCheck]
  by_cases h1 : atNeg r1 2 = some 0x90 ∧ atNeg r1 1 = some 0x00 <;>
    by_cases hc : atNeg cr 2 = some 0x90 ∧ atNeg cr 1 = some 0x00 <;>
    by_cases h2 : atNeg r2 2 = some 0x90 ∧ atNeg r2 1 = some 0x00 <;>
    cases v1 <;> cases v2 <;>
    simp [h1, hc, h2, Except.isOk, Except.toBool, List.count_cons]

/-- Witness for C4 amended: a run whose first read has a bad status
word, whose create succeeds and whose retried read succeeds and
verifies. -/
theorem C4_fallback_retry_witness :
    (readStoredDataWithFallback (α := Unit)
        ⟨[], none, [0x90, 0x00], [1, 0x90, 0x00], some ()⟩
        true "r" "c").2 = [.read, .create, .read] :=
  (((C4_fallback_retry (α := Unit)
      ⟨[], none, [0x90, 0x00], [1, 0x90, 0x00], some ()⟩ "r" "c").1
    (Or.inr rfl)).2.1 (by decide)).1

/-! ## Termination and truncation of the TLV parser -/

/-- Every loop iteration advances the index by at least two, so any
fuel covering the remaining bytes computes the same map: the
fuel-driven embedding of the `while` loop is fuel-insensitive beyond
`payload.length`, i.e. the loop terminates on every input. -/
theorem parseGo_fuel_irrelevant :
    ∀ (fuel extra : Nat) (payload : List Nat) (index : Nat) (acc : TagMap),
      payload.length - index ≤ fuel →
      parseGo (fuel + extra) payload index acc = parseGo fuel payload index acc := by
  intro fuel
  induction fuel with
  | zero =>
    intro extra payload index acc h
    have hidx : ¬ index < payload.length := by omega
    cases extra with
    | zero => rfl
    | succ e => simp [parseGo, hidx]
  | succ fuel ih =>
    intro extra payload index acc h
    by_cases hidx : index < payload.length
    · rw [show fuel + 1 + extra = (fuel + extra) + 1 from by omega]
      rw [parseGo, parseGo]
      simp only [dif_pos hidx]
      cases hl : payload[index + 1]? with
      | none => rfl
      | some l0 =>
        by_cases h81 : l0 = 0x81
        · simp only [if_pos h81]
          cases hl2 : payload[index + 2]? with
          | none => rfl
          | some l => exact ih extra payload _ _ (by omega)
        · by_cases h82 : l0 = 0x82
          · simp only [if_neg h81, if_pos h82]
            exact ih extra payload _ _ (by omega)
          · simp only [if_neg h81, if_neg h82]
            exact ih extra payload _ _ (by omega)
    · rw [show fuel + 1 + extra = (fuel + extra) + 1 from by omega]
      rw [parseGo, parseGo]
      simp only [dif_neg hidx]

/-- A value stored by `TagMap.set` is the new value or one already
present. -/
theorem TagMap.mem_values_set (m : TagMap) (tag : Nat) (v w : List Nat)
    (hw : w ∈ (m.set tag v).values) : w = v ∨ w ∈ m.values := by
  unfold TagMap.set at hw
  unfold TagMap.values at hw ⊢
  split_ifs at hw <;>
    simp only [List.reduceOption_mem_iff, List.mem_cons,
      List.mem_singleton, Option.some.injEq] at hw ⊢ <;>
    tauto

/-- Every slice taken by the parser loop is a contiguous part of the
payload, so every value in the resulting map is an infix of the
payload (a truncated declared length yields only bytes actually
present). -/
theorem parseGo_values_infix :
    ∀ (fuel : Nat) (payload : List Nat) (index : Nat) (acc : TagMap),
      (∀ v ∈ acc.values, v <:+: payload) →
      ∀ v ∈ (parseGo fuel payload index acc).values, v <:+: payload := by
  intro fuel
  induction fuel with
  | zero => intro payload index acc hacc; simpa [parseGo] using hacc
  | succ fuel ih =>
    intro payload index acc hacc
    have hslice : ∀ s l : Nat, (payload.drop s).take l <:+: payload :=
      fun s l => ( List.take_prefix l (payload.drop s)).isInfix.trans
        (List.drop_suffix s payload).isInfix
    have hset : ∀ tag val, (val <:+: payload) →
        ∀ v ∈ (acc.set tag val).values, v <:+: payload := by
      intro tag val hval v hv
      rcases TagMap.mem_values_set acc tag val v hv with rfl | hv'
      · exact hval
      · exact hacc v hv'
    rw [parseGo]
    by_cases hidx : index < payload.length
    · simp only [dif_pos hidx]
      cases hl : payload[index + 1]? with
      | none => exact hset _ [] List.nil_infix
      | some l0 =>
        by_cases h81 : l0 = 0x81
        · simp only [if_pos h81]
          cases hl2 : payload[index + 2]? with
          | none => exact hset _ [] List.nil_infix
          | some l => exact ih payload _ _ (hset _ _ (hslice _ _))
        · by_cases h82 : l0 = 0x82
          · simp only [if_neg h81, if_pos h82]
            exact ih payload _ _ (hset _ _ (hslice _ _))
          · simp only [if_neg h81, if_neg h82]
            exact ih payload _ _ (hset _ _ (hslice _ _))
    · simp only [dif_neg hidx]
      exact hacc

/-- C10: on every finite byte sequence — unknown tags, truncated
length fields, declared value lengths past the end of input included —
`parseSecureObjectPayload` terminates (the loop embedding computes the
same map under any surplus of fuel beyond the bound used, so the
`while` loop never runs forever and no error is raised), and every
value in the returned tag-to-value mapping is a contiguous part of the
input, so a truncated value holds only bytes actually present. -/
theorem C10_parse_total (payload : List Nat)
    (_hbytes : ∀ b ∈ payload, b < 256) (extra : Nat) :
    parseGo (payload.length + extra) payload 0 {} =
      parseSecureObjectPayload payload ∧
    ∀ v ∈ (parseSecureObjectPayload payload).values, v <:+: payload := by
  constructor
  · exact parseGo_fuel_irrelevant payload.length extra payload 0 {}
      (by omega)
  · exact parseGo_values_infix payload.length payload 0 {}
      (by intro v hv; simp [TagMap.values, List.reduceOption] at hv)

/-- Witness for C10 on `[0x41, 5, 1, 2]`, whose declared value length 5
overruns the two remaining bytes: any extra fuel computes the same
map, and the stored value `[1, 2]` (the bytes actually present) is an
infix of the input. -/
theorem C10_parse_total_witness :
    parseGo 9 [0x41, 5, 1, 2] 0 {} =
      parseSecureObjectPayload [0x41, 5, 1, 2] ∧
    [1, 2] <:+: [0x41, 5, 1, 2] :=
  ⟨(C10_parse_total [0x41, 5, 1, 2] (by decide) 5).1,
   (C10_parse_total [0x41, 5, 1, 2] (by decide) 5).2 [1, 2] (by decide)⟩

/-- Once the index reaches the end of the payload the loop stops. -/
theorem parseGo_stop (fuel : Nat) (payload : List Nat) (index : Nat)
    (acc : TagMap) (h : payload.length ≤ index) :
    parseGo fuel payload index acc = acc := by
  cases fuel with
  | zero => rfl
  | succ f => rw [parseGo, dif_neg (by omega)]

/-- C8: for every `n ≤ 65535`, `encodeTLVLength n` succeeds and both
the 1/2/3-byte decode rule and `parseSecureObjectPayload` itself
recover `n` — a tag-1 record with an encoded length of `n` and `n`
value bytes parses back to exactly those `n` bytes; for every
`n > 65535`, `encodeTLVLength` fails. -/
theorem C8_tlv_roundtrip (n : Nat) :
    (65535 < n → encodeTLVLength n =
      .error "Length exceeds maximum supported size of 65535.") ∧
    (∀ v : List Nat, v.length = n → n ≤ 65535 →
      ∃ e, encodeTLVLength n = .ok e ∧ decodeTLVLength e = some n ∧
        parseSecureObjectPayload (0x41 :: (e ++ v)) =
          { tag1 := some v }) := by
  constructor
  · intro h
    unfold encodeTLVLength
    rw [if_neg (by omega), if_neg (by omega), if_neg (by omega)]
  · intro v hv hn
    by_cases h1 : n ≤ 127
    · refine ⟨[n], ?_, ?_, ?_⟩
      · unfold encodeTLVLength
        rw [if_pos h1]
      · simp only [decodeTLVLength]
        rw [if_neg (by omega), if_neg (by omega)]
      · show parseSecureObjectPayload (0x41 :: n :: v) = _
        unfold parseSecureObjectPayload
        have hlen : (0x41 :: n :: v).length = (n + 1) + 1 := by
          simp [hv]
        rw [hlen, parseGo, dif_pos (by simp)]
        simp only [List.getElem?_cons_succ, List.getElem?_cons_zero,
          List.get]
        rw [if_neg (by omega), if_neg (by omega)]
        show parseGo (n + 1) (0x41 :: n :: v) (0 + 2 + n)
          (TagMap.set {} 0x41 ((v.drop 0).take n)) = _
        rw [parseGo_stop _ _ _ _ (by simp [hv]; omega)]
        simp [TagMap.set, hv ▸ List.take_length v]
    · by_cases h2 : n ≤ 255
      · refine ⟨[0x81, n], ?_, ?_, ?_⟩
        · unfold encodeTLVLength
          rw [if_neg h1, if_pos h2]
        · simp [decodeTLVLength]
        · show parseSecureObjectPayload (0x41 :: 0x81 :: n :: v) = _
          unfold parseSecureObjectPayload
          have hlen : (0x41 :: 0x81 :: n :: v).length = (n + 2) + 1 := by
            simp [hv]
          rw [hlen, parseGo, dif_pos (by simp)]
          simp only [List.getElem?_cons_succ, List.getElem?_cons_zero,
            List.get]
          rw [if_pos trivial]
          show parseGo (n + 2) (0x41 :: 0x81 :: n :: v) (0 + 3 + n)
            (TagMap.set {} 0x41 ((v.drop 0).take n)) = _
          rw [parseGo_stop _ _ _ _ (by simp [hv]; omega)]
          simp [TagMap.set, hv ▸ List.take_length v]
      · refine ⟨[0x82, n / 256, n % 256], ?_, ?_, ?_⟩
        · unfold encodeTLVLength
          rw [if_neg h1, if_neg h2, if_pos hn]
        · have hmod : n / 256 * 256 + n % 256 = n := by omega
          simp [decodeTLVLength, hmod]
        · show parseSecureObjectPayload
            (0x41 :: 0x82 :: n / 256 :: n % 256 :: v) = _
          unfold parseSecureObjectPayload
          have hlen : (0x41 :: 0x82 :: n / 256 :: n % 256 :: v).length
              = (n + 3) + 1 := by simp [hv]
          rw [hlen, parseGo, dif_pos (by simp)]
          simp only [List.getElem?_cons_succ, List.getElem?_cons_zero,
            List.get]
          rw [if_pos trivial]
          have hmod : n / 256 * 256 + n % 256 = n := by omega
          rw [show (0 : Nat) + 4 = 4 from rfl]
          simp only [Option.getD_some, hmod]
          show parseGo (n + 3) (0x41 :: 0x82 :: n / 256 :: n % 256 :: v)
            (4 + n) (TagMap.set {} 0x41 ((v.drop 0).take n)) = _
          rw [parseGo_stop _ _ _ _ (by simp [hv]; omega)]
          simp [TagMap.set, hv ▸ List.take_length v]

/-- Witness for C8 at `n = 3` with value bytes `[7, 8, 9]`, and at
`n = 70000` for the failure side. -/
theorem C8_tlv_roundtrip_witness :
    encodeTLVLength 70000 =
      .error "Length exceeds maximum supported size of 65535." ∧
    ∃ e, encodeTLVLength 3 = .ok e ∧ decodeTLVLength e = some 3 ∧
      parseSecureObjectPayload (0x41 :: (e ++ [7, 8, 9])) =
        { tag1 := some [7, 8, 9] } :=
  ⟨(C8_tlv_roundtrip 70000).1 (by omega),
   (C8_tlv_roundtrip 3).2 [7, 8, 9] rfl (by omega)⟩

end NfcCore
